import Mathlib

/-!
Verification development for the FinMind asynchronous query-execution engine
(budget ledger, query executor, market-enrichment pipeline, job queue, and
the JWT access-token helpers).

Costs are modelled as exact rationals (the source uses a single currency
unit with non-negative numeric values); timestamps are modelled as natural
numbers.  The budget ledger, query executor, enrichment pipeline and job
queue are not present in the provided sources (only their callers and the
shared zod schemas are), so those definitions are modelled from the spec,
as their doc comments state.  The JWT helpers are embedded directly from
src/apps/api/src/auth/jwt.ts.
-/

namespace FinMind

/-! ## Budget ledger data model -/

/-- Caps for daily, monthly, per-session and per-query spend.
Embeds budgetSettingsSchema of the shared package (four positive numbers). -/
structure BudgetSettings where
  dailyBudgetCap : ℚ
  monthlyBudgetCap : ℚ
  perSessionCap : ℚ
  perQueryCap : ℚ
deriving DecidableEq

/-- Running spend totals for the current day, month and session. -/
structure SpentTotals where
  daily : ℚ
  monthly : ℚ
  session : ℚ
deriving DecidableEq

/-- Per-user budget ledger entry: settings plus running totals
(remaining values are derived, never stored). -/
structure BudgetState where
  settings : BudgetSettings
  spent : SpentTotals
deriving DecidableEq

/-- The four caps an admission decision can name. -/
inductive CapKind
  | daily
  | monthly
  | session
  | perQuery
deriving DecidableEq

/-- Result of an admission check: allowed, or denied naming the breached cap. -/
inductive AdmissionDecision
  | Allowed
  | Denied (reason : CapKind)
deriving DecidableEq

def capName : CapKind → String
  | .daily => "daily"
  | .monthly => "monthly"
  | .session => "session"
  | .perQuery => "perQuery"

/-- Modelled from the spec: checkAdmission(userId, sessionId, estimatedCost)
of the Budget Ledger (the ledger implementation is not among the provided
sources).  Denies when projected daily, monthly, per-session, or per-query
spend would exceed the corresponding cap, checked in that order; comparisons
use strict `>` (exactly meeting a cap is allowed).  It is safe to call
repeatedly without side effects, so it returns the decision together with
the (unchanged) ledger state. -/
def checkAdmission (st : BudgetState) (estimatedCost : ℚ) :
    AdmissionDecision × BudgetState :=
  if st.spent.daily + estimatedCost > st.settings.dailyBudgetCap then
    (.Denied .daily, st)
  else if st.spent.monthly + estimatedCost > st.settings.monthlyBudgetCap then
    (.Denied .monthly, st)
  else if st.spent.session + estimatedCost > st.settings.perSessionCap then
    (.Denied .session, st)
  else if estimatedCost > st.settings.perQueryCap then
    (.Denied .perQuery, st)
  else
    (.Allowed, st)

/-- Modelled from the spec: recordUsage(userId, sessionId, actualCost) of the
Budget Ledger (the ledger implementation is not among the provided sources).
Atomically adds the actual cost to the daily, monthly and session
aggregates of the user's ledger entry. -/
def recordUsage (st : BudgetState) (actualCost : ℚ) : BudgetState :=
  { st with
    spent :=
      { daily := st.spent.daily + actualCost
        monthly := st.spent.monthly + actualCost
        session := st.spent.session + actualCost } }

/-! ## Budget settings update -/

/-- A partial update of the caps: each field is optional.  Embeds
budgetSettingsSchema.partial() as used by the POST /api/budget/settings
handler. -/
structure BudgetSettingsPatch where
  dailyBudgetCap : Option ℚ
  monthlyBudgetCap : Option ℚ
  perSessionCap : Option ℚ
  perQueryCap : Option ℚ
deriving DecidableEq

/-- A present patch field must be a positive number (zod .positive()); an
absent field imposes no constraint. -/
def positiveIfPresent : Option ℚ → Prop
  | none => True
  | some v => 0 < v

instance (o : Option ℚ) : Decidable (positiveIfPresent o) :=
  match o with
  | none => isTrue trivial
  | some v => inferInstanceAs (Decidable (0 < v))

/-- Embeds budgetSettingsSchema.partial().parse of the POST
/api/budget/settings handler: every field present in the patch must be a
positive number, otherwise the whole request is rejected (ZodError). -/
def parseBudgetSettingsPatch (p : BudgetSettingsPatch) : Option BudgetSettingsPatch :=
  if positiveIfPresent p.dailyBudgetCap ∧ positiveIfPresent p.monthlyBudgetCap
      ∧ positiveIfPresent p.perSessionCap ∧ positiveIfPresent p.perQueryCap then
    some p
  else
    none

/-- Fields named by the patch replace the current caps; unspecified fields
are unchanged. -/
def applyBudgetPatch (s : BudgetSettings) (p : BudgetSettingsPatch) : BudgetSettings :=
  { dailyBudgetCap := p.dailyBudgetCap.getD s.dailyBudgetCap
    monthlyBudgetCap := p.monthlyBudgetCap.getD s.monthlyBudgetCap
    perSessionCap := p.perSessionCap.getD s.perSessionCap
    perQueryCap := p.perQueryCap.getD s.perQueryCap }

/-- Modelled from the spec: updateSettings(userId, patch) of the Budget
Ledger (researchService.updateBudgetSettings is not among the provided
sources).  Validates the patch as the handler does, then merges it over the
current settings; a patch carrying a non-positive value is rejected
(`none`). -/
def updateSettings (st : BudgetState) (p : BudgetSettingsPatch) : Option BudgetState :=
  match parseBudgetSettingsPatch p with
  | none => none
  | some p' => some { st with settings := applyBudgetPatch st.settings p' }

/-! ## Market enrichment pipeline -/

/-- Enrichment profile: light fetches only the price chart and metric
snapshot; full attempts all fragments. -/
inductive EnrichProfile
  | light
  | full
deriving DecidableEq

/-- The sparse bag of optional market-data fragments, one field per named
fragment of queryArtifactSchema; `none` means the fragment is absent
(fetch failed or was not attempted).  Fragment payloads are opaque here. -/
structure FragmentResults where
  priceChart : Option String
  metricSnapshot : Option String
  macroCards : Option String
  earningsCalendar : Option String
  newsSentiment : Option String
  optionsActivity : Option String
  filingChanges : Option String
  transcriptQA : Option String
  ownershipTrend : Option String
deriving DecidableEq

/-- The bag with every fragment fetch failed or unavailable. -/
def FragmentResults.allAbsent : FragmentResults :=
  ⟨none, none, none, none, none, none, none, none, none⟩

/-- True when no fragment at all is present in the bag. -/
def FragmentResults.isEmpty (f : FragmentResults) : Bool :=
  f.priceChart.isNone && f.metricSnapshot.isNone && f.macroCards.isNone
    && f.earningsCalendar.isNone && f.newsSentiment.isNone
    && f.optionsActivity.isNone && f.filingChanges.isNone
    && f.transcriptQA.isNone && f.ownershipTrend.isNone

/-- Modelled from the spec: enrich(ticker, relatedTickers?, profile) of the
Market Enrichment Pipeline (enrichArtifactsWithMarketData is not among the
provided sources).  The argument holds the independent outcomes of the
individual fragment fetches (`none` = that fetch failed); each fragment is
kept or dropped independently of the others, a light profile only attempts
the price chart and metric snapshot, and no fragment's absence is an
error. -/
def enrich (profile : EnrichProfile) (fetched : FragmentResults) : FragmentResults :=
  match profile with
  | .light =>
      { priceChart := fetched.priceChart
        metricSnapshot := fetched.metricSnapshot
        macroCards := none
        earningsCalendar := none
        newsSentiment := none
        optionsActivity := none
        filingChanges := none
        transcriptQA := none
        ownershipTrend := none }
  | .full => fetched

/-! ## Query records and the executor -/

/-- Status of a durable query record (queryStatusSchema). -/
inductive QueryStatus
  | pending
  | completed
  | failed
deriving DecidableEq

/-- Token and cost accounting of one query (queryUsageSchema); the
costBreakdown names the agent (openrouter), data (financial) and search
(exa) cost centers, and estimatedCost carries the total cost the agent
reported. -/
structure QueryUsage where
  tokenCount : ℕ
  inputTokens : ℕ
  outputTokens : ℕ
  estimatedCost : ℚ
  openrouterCost : ℚ
  financialCost : ℚ
  exaCost : ℚ
deriving DecidableEq

/-- The durable result of one executed query (queryRecordSchema). -/
structure QueryRecord where
  id : String
  sessionId : String
  userId : String
  question : String
  response : Option String
  status : QueryStatus
  error : Option String
  provider : String
  model : String
  usage : Option QueryUsage
  artifacts : Option FragmentResults
  createdAt : ℕ
  updatedAt : ℕ
deriving DecidableEq

/-- Query modes (queryModeSchema). -/
inductive QueryMode
  | guided
  | advanced
deriving DecidableEq

/-- Verbosity levels (queryVerbositySchema). -/
inductive QueryVerbosity
  | short
  | standard
  | deep
deriving DecidableEq

/-- One execution request (executeQueryInputSchema). -/
structure QueryInput where
  sessionId : String
  query : String
  mode : Option QueryMode
  verbosity : Option QueryVerbosity
deriving DecidableEq

/-- Outcome of the Agent Execution Adapter: a successful answer with its
usage report, or an AgentError message; a failed attempt may still report
partial usage, which is then billable. -/
inductive AgentResult
  | success (responseText : String) (usage : QueryUsage)
  | failure (message : String) (partialUsage : Option QueryUsage)
deriving DecidableEq

/-- The executor's result: the persisted record, the ledger after
settlement, and whether the agent adapter was invoked at all. -/
structure ExecOutcome where
  record : QueryRecord
  ledger : BudgetState
  agentInvoked : Bool
deriving DecidableEq

/-- The record as initially created: pending, no response, no error. -/
def initialRecord (userId : String) (input : QueryInput) (recordId : String)
    (now : ℕ) : QueryRecord :=
  { id := recordId
    sessionId := input.sessionId
    userId := userId
    question := input.query
    response := none
    status := .pending
    error := none
    provider := "openrouter"
    model := "auto"
    usage := none
    artifacts := none
    createdAt := now
    updatedAt := now }

/-- Modelled from the spec: the Query Executor's per-invocation state
machine, admitting -> executing -> enriching -> settling -> done, collapsing
to a single failed exit (the executor implementation is not among the
provided sources).  The agent outcome and the fragment-fetch outcomes are
passed in as the environment's behaviour for this invocation.  On denial it
stores a failed record with a budget-exceeded error naming the breached cap,
without invoking the agent; on AgentError it stores a failed record with the
adapter's message (recording any partial usage the agent reported); on
success it merges the enrichment fragments, records the actual usage, and
stores the record as completed. -/
def executeQuery (st : BudgetState) (userId : String) (input : QueryInput)
    (recordId : String) (now : ℕ) (estimatedCost : ℚ) (profile : EnrichProfile)
    (agent : AgentResult) (fetched : FragmentResults) : ExecOutcome :=
  match (checkAdmission st estimatedCost).1 with
  | .Denied cap =>
      { record :=
          { initialRecord userId input recordId now with
            status := .failed
            error := some ("Budget exceeded: " ++ capName cap ++ " cap") }
        ledger := st
        agentInvoked := false }
  | .Allowed =>
      match agent with
      | .failure msg partialUsage =>
          { record :=
              { initialRecord userId input recordId now with
                status := .failed
                error := some msg
                usage := partialUsage }
            ledger :=
              match partialUsage with
              | some u => recordUsage st u.estimatedCost
              | none => st
            agentInvoked := true }
      | .success text usage =>
          { record :=
              { initialRecord userId input recordId now with
                status := .completed
                response := some text
                error := none
                usage := some usage
                artifacts := some (enrich profile fetched) }
            ledger := recordUsage st usage.estimatedCost
            agentInvoked := true }

/-! ## Durable record store (insert-only persistence) -/

/-- The durable store of query records, keyed by record identifier. -/
abbrev RecordStore := List (String × QueryRecord)

/-- First-match lookup of a record by identifier. -/
def findRecord : RecordStore → String → Option QueryRecord
  | [], _ => none
  | (k, v) :: rest, id => if k = id then some v else findRecord rest id

/-- Modelled from the spec: the persistence discipline of the core —
exactly one terminal persistence write per record identifier, records are
never deleted and never reopened for a second write.  A step persists one
record under a fresh identifier. -/
inductive StoreStep : RecordStore → RecordStore → Prop
  | persist (s : RecordStore) (r : QueryRecord)
      (hfresh : findRecord s r.id = none) :
      StoreStep s ((r.id, r) :: s)

/-! ## Job queue -/

/-- Job lifecycle states. -/
inductive JobStatus
  | queued
  | running
  | completed
  | failed
deriving DecidableEq

/-- One asynchronous execution request tracked by the queue. -/
structure Job where
  id : String
  ownerId : String
  input : QueryInput
  status : JobStatus
  result : Option QueryRecord
  error : Option String
  createdAt : ℕ
  updatedAt : ℕ
deriving DecidableEq

/-- A terminal job is completed or failed. -/
def JobStatus.isTerminal : JobStatus → Prop
  | .completed => True
  | .failed => True
  | _ => False

instance (s : JobStatus) : Decidable s.isTerminal :=
  match s with
  | .queued => isFalse id
  | .running => isFalse id
  | .completed => isTrue trivial
  | .failed => isTrue trivial

/-- The in-memory job registry, keyed by job identifier. -/
abbrev JobRegistry := List (String × Job)

/-- First-match lookup of a job by identifier. -/
def findJob : JobRegistry → String → Option Job
  | [], _ => none
  | (k, v) :: rest, id => if k = id then some v else findJob rest id

/-- Replace (the first binding of) a job identifier with a new job value. -/
def setJob : JobRegistry → String → Job → JobRegistry
  | [], _, _ => []
  | (k, v) :: rest, id, j =>
      if k = id then (k, j) :: rest else (k, v) :: setJob rest id j

/-- Modelled from the spec: enqueue(userId, input) of the Job Queue (the
QueryQueue implementation is not among the provided sources).  Creates a
queued Job synchronously under a fresh identifier and returns it together
with the extended registry. -/
def enqueue (reg : JobRegistry) (jobId userId : String) (input : QueryInput)
    (now : ℕ) : Job × JobRegistry :=
  let j : Job :=
    { id := jobId
      ownerId := userId
      input := input
      status := .queued
      result := none
      error := none
      createdAt := now
      updatedAt := now }
  (j, (jobId, j) :: reg)

/-- The scheduled unit marks the job running immediately before invoking
the Executor. -/
def startJob (j : Job) (now : ℕ) : Job :=
  { j with status := .running, updatedAt := now }

/-- Terminal transition embedding the Executor's resulting record. -/
def completeJob (j : Job) (rec : QueryRecord) (now : ℕ) : Job :=
  { j with status := .completed, result := some rec, updatedAt := now }

/-- Terminal transition embedding the Executor's error. -/
def failJob (j : Job) (msg : String) (now : ℕ) : Job :=
  { j with status := .failed, error := some msg, updatedAt := now }

/-- Modelled from the spec: getJob(jobId, userId) of the Job Queue — returns
the job only if the caller owns it, otherwise behaves exactly as if the job
did not exist. -/
def getJob (reg : JobRegistry) (jobId userId : String) : Option Job :=
  match findJob reg jobId with
  | some j => if j.ownerId = userId then some j else none
  | none => none

/-- Modelled from the spec: the Job Queue's execution model as a step
relation on the registry — a job is created queued by enqueue (fresh id),
transitions to running when execution starts, and terminates exactly once
in completed or failed; the registry is mutated only by these steps and
jobs are never deleted. -/
inductive QueueStep : JobRegistry → JobRegistry → Prop
  | enqueueStep (reg : JobRegistry) (jobId userId : String) (input : QueryInput)
      (now : ℕ) (hfresh : findJob reg jobId = none) :
      QueueStep reg (enqueue reg jobId userId input now).2
  | startStep (reg : JobRegistry) (jobId : String) (j : Job) (now : ℕ)
      (hfind : findJob reg jobId = some j) (hq : j.status = .queued) :
      QueueStep reg (setJob reg jobId (startJob j now))
  | completeStep (reg : JobRegistry) (jobId : String) (j : Job)
      (rec : QueryRecord) (now : ℕ)
      (hfind : findJob reg jobId = some j) (hr : j.status = .running) :
      QueueStep reg (setJob reg jobId (completeJob j rec now))
  | failStep (reg : JobRegistry) (jobId : String) (j : Job) (msg : String) (now : ℕ)
      (hfind : findJob reg jobId = some j) (hr : j.status = .running) :
      QueueStep reg (setJob reg jobId (failJob j msg now))

/-- The possible one-step status evolutions of a single job. -/
inductive StatusTransition : JobStatus → JobStatus → Prop
  | same (s : JobStatus) : StatusTransition s s
  | start : StatusTransition .queued .running
  | complete : StatusTransition .running .completed
  | fail : StatusTransition .running .failed

/-- Reflexive-transitive reachability along a step relation. -/
inductive Reach {α : Type} (step : α → α → Prop) : α → α → Prop
  | refl (a : α) : Reach step a a
  | head {a b c : α} (h1 : step a b) (h2 : Reach step b c) : Reach step a c

/-! ## JWT access tokens (embedded from src/apps/api/src/auth/jwt.ts) -/

/-- JWT claims set used by signAccessToken: the subject (absent in a
foreign token is possible), issued-at, and expiration, in seconds. -/
structure JwtPayload where
  sub : Option String
  iat : ℕ
  exp : ℕ
deriving DecidableEq

/-- A signed token: protected-header algorithm, payload, and the HMAC-SHA256
signature, modelled symbolically as the (secret, payload) pair it
authenticates. -/
structure SignedToken where
  alg : String
  payload : JwtPayload
  mac : String × JwtPayload
deriving DecidableEq

/-- The 7-day expiration window of setExpirationTime, in seconds. -/
def sevenDays : ℕ := 7 * 24 * 60 * 60

/-- Embeds signAccessToken (src/apps/api/src/auth/jwt.ts lines 15-21): an
HS256 JWT with sub = userId, iat = now and exp = now + 7 days, signed with
the configured secret. -/
def signAccessToken (secret : String) (now : ℕ) (userId : String) : SignedToken :=
  { alg := "HS256"
    payload := { sub := some userId, iat := now, exp := now + sevenDays }
    mac := (secret, { sub := some userId, iat := now, exp := now + sevenDays }) }

/-- The 401 failure of verifyAccessToken (both the malformed-payload throw
inside the try block and the catch-all rethrow surface as a 401 error). -/
inductive AuthError
  | unauthorized
deriving DecidableEq

/-- Embeds verifyAccessToken (src/apps/api/src/auth/jwt.ts lines 23-36):
jwtVerify checks the signature against the configured secret and that the
exp claim lies in the future; the subject is then extracted, but a missing
or empty sub (JavaScript falsy check on the string) raises an error, which
the surrounding catch converts to the 401 failure. -/
def verifyAccessToken (secret : String) (now : ℕ) (t : SignedToken) :
    Except AuthError String :=
  if t.alg = "HS256" ∧ t.mac = (secret, t.payload) ∧ now < t.payload.exp then
    match t.payload.sub with
    | some s => if s = "" then .error .unauthorized else .ok s
    | none => .error .unauthorized
  else
    .error .unauthorized

/-! ## Concrete demonstration values -/

def demoInput : QueryInput :=
  { sessionId := "s1", query := "AAPL outlook", mode := none, verbosity := none }

def demoUsage : QueryUsage :=
  { tokenCount := 100
    inputTokens := 60
    outputTokens := 40
    estimatedCost := 1
    openrouterCost := 1
    financialCost := 0
    exaCost := 0 }

/-- The spec's denial scenario: all caps 10, daily spend 9.5. -/
def demoDenyBudget : BudgetState :=
  { settings :=
      { dailyBudgetCap := 10, monthlyBudgetCap := 10
        perSessionCap := 10, perQueryCap := 10 }
    spent := { daily := 19/2, monthly := 19/2, session := 19/2 } }

/-- A ledger whose daily projection exactly meets the cap at cost 6. -/
def demoEdgeBudget : BudgetState :=
  { settings :=
      { dailyBudgetCap := 10, monthlyBudgetCap := 10
        perSessionCap := 10, perQueryCap := 10 }
    spent := { daily := 4, monthly := 0, session := 0 } }

/-- A fresh ledger with all caps 5 and nothing spent. -/
def demoFreshBudget : BudgetState :=
  { settings :=
      { dailyBudgetCap := 5, monthlyBudgetCap := 5
        perSessionCap := 5, perQueryCap := 5 }
    spent := { daily := 0, monthly := 0, session := 0 } }

def demoDoneJob : Job :=
  { id := "j1"
    ownerId := "u1"
    input := demoInput
    status := .completed
    result := none
    error := none
    createdAt := 0
    updatedAt := 1 }

def demoRegistry : JobRegistry := [("j1", demoDoneJob)]

def demoRecord : QueryRecord := initialRecord "u1" demoInput "q1" 0

def demoPatch : BudgetSettingsPatch :=
  { dailyBudgetCap := some 7, monthlyBudgetCap := none
    perSessionCap := none, perQueryCap := none }

def demoBadPatch : BudgetSettingsPatch :=
  { dailyBudgetCap := some 0, monthlyBudgetCap := none
    perSessionCap := none, perQueryCap := none }

def demoUpdatedBudget : BudgetState :=
  { settings :=
      { dailyBudgetCap := 7, monthlyBudgetCap := 5
        perSessionCap := 5, perQueryCap := 5 }
    spent := { daily := 0, monthly := 0, session := 0 } }

/-! ## Helper lemmas -/

theorem findJob_setJob_ne (reg : JobRegistry) (k id : String) (j : Job)
    (h : k ≠ id) : findJob (setJob reg k j) id = findJob reg id := by
  induction reg with
  | nil => rfl
  | cons hd tl ih =>
      obtain ⟨k', v⟩ := hd
      by_cases hk : k' = k
      · subst hk
        simp [setJob, findJob, h]
      · simp [setJob, findJob, hk]
        by_cases hid : k' = id
        · simp [hid]
        · simp [hid, ih]

theorem findJob_setJob_eq (reg : JobRegistry) (id : String) (j j' : Job)
    (h : findJob reg id = some j) :
    findJob (setJob reg id j') id = some j' := by
  induction reg with
  | nil => simp [findJob] at h
  | cons hd tl ih =>
      obtain ⟨k, v⟩ := hd
      by_cases hk : k = id
      · subst hk
        simp [setJob, findJob]
      · simp [findJob, hk] at h
        simp [setJob, findJob, hk, ih h]

theorem Reach.preserve {α : Type} {step : α → α → Prop} {P : α → Prop}
    (hstep : ∀ a b, step a b → P a → P b) :
    ∀ a b, Reach step a b → P a → P b := by
  intro a b h
  induction h with
  | refl => exact id
  | head h1 _ ih => exact fun hp => ih (hstep _ _ h1 hp)

theorem foldl_recordUsage_daily (l : List ℚ) :
    ∀ init : BudgetState,
      (l.foldl recordUsage init).spent.daily = init.spent.daily + l.sum := by
  induction l with
  | nil => intro init; simp
  | cons c rest ih =>
      intro init
      simp only [List.foldl_cons, List.sum_cons, ih, recordUsage]
      ring

theorem queueStep_preserves_terminal (reg reg' : JobRegistry) (id : String)
    (j : Job) (hstep : QueueStep reg reg') (hfind : findJob reg id = some j)
    (hterm : j.status.isTerminal) : findJob reg' id = some j := by
  cases hstep with
  | enqueueStep jobId userId input now hfresh =>
      by_cases hid : jobId = id
      · subst hid
        rw [hfind] at hfresh
        cases hfresh
      · simpa [enqueue, findJob, hid] using hfind
  | startStep jobId j0 now hfind0 hq =>
      by_cases hid : jobId = id
      · subst hid
        rw [hfind] at hfind0
        injection hfind0 with h0
        rw [h0, hq] at hterm
        cases hterm
      · rw [findJob_setJob_ne reg jobId id _ hid, hfind]
  | completeStep jobId j0 rec now hfind0 hr =>
      by_cases hid : jobId = id
      · subst hid
        rw [hfind] at hfind0
        injection hfind0 with h0
        rw [h0, hr] at hterm
        cases hterm
      · rw [findJob_setJob_ne reg jobId id _ hid, hfind]
  | failStep jobId j0 msg now hfind0 hr =>
      by_cases hid : jobId = id
      · subst hid
        rw [hfind] at hfind0
        injection hfind0 with h0
        rw [h0, hr] at hterm
        cases hterm
      · rw [findJob_setJob_ne reg jobId id _ hid, hfind]

theorem storeStep_preserves (s s' : RecordStore) (id : String) (r : QueryRecord)
    (hstep : StoreStep s s') (hfind : findRecord s id = some r) :
    findRecord s' id = some r := by
  cases hstep with
  | persist r' hfresh =>
      by_cases hid : r'.id = id
      · subst hid
        rw [hfind] at hfresh
        cases hfresh
      · simpa [findRecord, hid] using hfind

/-! ## Claim theorems -/

/-- C1: if a user's current daily spend plus the estimated cost strictly
exceeds the daily budget cap, checkAdmission returns Denied with a reason
naming the daily cap, and the query executor finishes without ever invoking
the agent execution adapter, storing a failed record whose error names the
breached cap. -/
theorem budget_daily_cap_denies (st : BudgetState) (userId : String)
    (input : QueryInput) (recordId : String) (now : ℕ) (e : ℚ)
    (profile : EnrichProfile) (agent : AgentResult) (fetched : FragmentResults)
    (h : st.settings.dailyBudgetCap < st.spent.daily + e) :
    (checkAdmission st e).1 = .Denied .daily
    ∧ (executeQuery st userId input recordId now e profile agent fetched).agentInvoked
        = false
    ∧ (executeQuery st userId input recordId now e profile agent fetched).record.status
        = .failed
    ∧ (executeQuery st userId input recordId now e profile agent fetched).record.error
        = some "Budget exceeded: daily cap" := by
  have hadm : checkAdmission st e = (.Denied .daily, st) := by
    unfold checkAdmission
    rw [if_pos h]
  refine ⟨by rw [hadm], ?_, ?_, ?_⟩ <;>
    simp [executeQuery, hadm, capName]

/-- C1 witness: the spec's scenario — caps 10, daily spend 9.5, estimated
cost 1 — is denied naming the daily cap, the agent is never invoked, and
the stored record is failed with a budget-exceeded error. -/
theorem budget_daily_cap_denies_witness :
    (checkAdmission demoDenyBudget 1).1 = .Denied .daily
    ∧ (executeQuery demoDenyBudget "u1" demoInput "q1" 0 1 .light
        (.failure "unused" none) FragmentResults.allAbsent).agentInvoked = false
    ∧ (executeQuery demoDenyBudget "u1" demoInput "q1" 0 1 .light
        (.failure "unused" none) FragmentResults.allAbsent).record.status = .failed
    ∧ (executeQuery demoDenyBudget "u1" demoInput "q1" 0 1 .light
        (.failure "unused" none) FragmentResults.allAbsent).record.error
        = some "Budget exceeded: daily cap" :=
  budget_daily_cap_denies demoDenyBudget "u1" demoInput "q1" 0 1 .light
    (.failure "unused" none) FragmentResults.allAbsent
    (by norm_num [demoDenyBudget])

/-- C7: admission comparisons are strict — whenever every projected spend
is at most its cap (in particular when the estimated cost brings the
projection exactly equal to a cap), checkAdmission allows the query. -/
theorem admission_exact_cap_allowed (st : BudgetState) (e : ℚ)
    (h1 : st.spent.daily + e ≤ st.settings.dailyBudgetCap)
    (h2 : st.spent.monthly + e ≤ st.settings.monthlyBudgetCap)
    (h3 : st.spent.session + e ≤ st.settings.perSessionCap)
    (h4 : e ≤ st.settings.perQueryCap) :
    (checkAdmission st e).1 = .Allowed := by
  unfold checkAdmission
  rw [if_neg (not_lt.mpr h1), if_neg (not_lt.mpr h2), if_neg (not_lt.mpr h3),
    if_neg (not_lt.mpr h4)]

/-- C7 witness: with every cap 10, daily spend 4 and estimated cost 6 the
daily projection exactly meets its cap, and admission is allowed. -/
theorem admission_exact_cap_allowed_witness :
    (checkAdmission demoEdgeBudget 6).1 = .Allowed :=
  admission_exact_cap_allowed demoEdgeBudget 6
    (by norm_num [demoEdgeBudget]) (by norm_num [demoEdgeBudget])
    (by norm_num [demoEdgeBudget]) (by norm_num [demoEdgeBudget])

/-- C9: checkAdmission is side-effect free — a single call returns the
budget state (spent totals and settings) unchanged, and so does any
sequence of repeated calls, whatever the decisions are. -/
theorem admission_check_pure :
    (∀ (st : BudgetState) (e : ℚ), (checkAdmission st e).2 = st)
    ∧ ∀ (st : BudgetState) (es : List ℚ),
        es.foldl (fun s e => (checkAdmission s e).2) st = st := by
  have hone : ∀ (st : BudgetState) (e : ℚ), (checkAdmission st e).2 = st := by
    intro st e
    unfold checkAdmission
    repeat' split
    all_goals rfl
  refine ⟨hone, ?_⟩
  intro st es
  induction es generalizing st with
  | nil => rfl
  | cons e rest ih => simp [hone, ih]

/-- C2: settlement never loses an update — recordUsage is a single atomic
increment, so settling any collection of queries for the same user, in any
interleaving (permutation) of those atomic increments, raises the daily
spend by exactly the sum of their actual costs; and one successful executor
run applies recordUsage exactly once, raising the daily spend by exactly
the agent's reported actual cost. -/
theorem record_usage_no_lost_updates :
    (∀ (init : BudgetState) (costs l : List ℚ), l.Perm costs →
        (l.foldl recordUsage init).spent.daily = init.spent.daily + costs.sum)
    ∧ ∀ (st : BudgetState) (userId : String) (input : QueryInput)
        (recordId : String) (now : ℕ) (e : ℚ) (profile : EnrichProfile)
        (text : String) (usage : QueryUsage) (fetched : FragmentResults),
        (checkAdmission st e).1 = .Allowed →
        (executeQuery st userId input recordId now e profile
            (.success text usage) fetched).ledger.spent.daily
          = st.spent.daily + usage.estimatedCost := by
  constructor
  · intro init costs l hperm
    rw [foldl_recordUsage_daily, hperm.sum_eq]
  · intro st userId input recordId now e profile text usage fetched hadm
    simp [executeQuery, hadm, recordUsage]

/-- C2 witness: settling two queries of costs 1 and 2 in the opposite
order still raises the daily spend by their exact sum, and a concrete
successful execution raises it by exactly the reported cost 1. -/
theorem record_usage_no_lost_updates_witness :
    (([2, 1] : List ℚ).foldl recordUsage demoFreshBudget).spent.daily
        = demoFreshBudget.spent.daily + ([1, 2] : List ℚ).sum
    ∧ (executeQuery demoFreshBudget "u1" demoInput "q1" 0 1 .light
        (.success "answer" demoUsage) FragmentResults.allAbsent).ledger.spent.daily
        = demoFreshBudget.spent.daily + demoUsage.estimatedCost :=
  ⟨record_usage_no_lost_updates.1 demoFreshBudget [1, 2] [2, 1]
      (List.Perm.swap 1 2 []),
    record_usage_no_lost_updates.2 demoFreshBudget "u1" demoInput "q1" 0 1 .light
      "answer" demoUsage FragmentResults.allAbsent
      (by norm_num [checkAdmission, demoFreshBudget])⟩

/-- C3: every job is created in status queued by enqueue (and is
immediately readable under its identifier); any single queue step moves a
job's status only along queued to running to exactly one of completed or
failed (or leaves it unchanged); and once a job is terminal, every
reachable later registry still holds the identical job value, so repeated
getJob calls return that identical, immutable Job. -/
theorem job_lifecycle :
    (∀ (reg : JobRegistry) (jobId userId : String) (input : QueryInput) (now : ℕ),
        (enqueue reg jobId userId input now).1.status = .queued
        ∧ findJob (enqueue reg jobId userId input now).2 jobId
            = some (enqueue reg jobId userId input now).1)
    ∧ (∀ (reg reg' : JobRegistry) (id : String) (j j' : Job),
        QueueStep reg reg' → findJob reg id = some j →
        findJob reg' id = some j' → StatusTransition j.status j'.status)
    ∧ ∀ (reg reg' : JobRegistry) (id : String) (j : Job),
        Reach QueueStep reg reg' → findJob reg id = some j →
        j.status.isTerminal →
        findJob reg' id = some j ∧ getJob reg' id j.ownerId = some j := by
  refine ⟨?_, ?_, ?_⟩
  · intro reg jobId userId input now
    exact ⟨rfl, by simp [enqueue, findJob]⟩
  · intro reg reg' id j j' hstep hfind hfind'
    cases hstep with
    | enqueueStep jobId userId input now hfresh =>
        by_cases hid : jobId = id
        · subst hid
          rw [hfind] at hfresh
          cases hfresh
        · simp only [enqueue, findJob, hid, if_neg hid] at hfind'
          rw [hfind] at hfind'
          injection hfind' with h0
          rw [h0]
          exact .same _
    | startStep jobId j0 now hfind0 hq =>
        by_cases hid : jobId = id
        · subst hid
          have h0 : j = j0 := Option.some.inj (hfind.symm.trans hfind0)
          rw [findJob_setJob_eq reg jobId j0 (startJob j0 now) hfind0] at hfind'
          have h1 : startJob j0 now = j' := Option.some.inj hfind'
          rw [h0, ← h1, hq]
          exact .start
        · rw [findJob_setJob_ne reg jobId id _ hid, hfind] at hfind'
          injection hfind' with h0
          rw [h0]
          exact .same _
    | completeStep jobId j0 rec now hfind0 hr =>
        by_cases hid : jobId = id
        · subst hid
          have h0 : j = j0 := Option.some.inj (hfind.symm.trans hfind0)
          rw [findJob_setJob_eq reg jobId j0 (completeJob j0 rec now) hfind0] at hfind'
          have h1 : completeJob j0 rec now = j' := Option.some.inj hfind'
          rw [h0, ← h1, hr]
          exact .complete
        · rw [findJob_setJob_ne reg jobId id _ hid, hfind] at hfind'
          injection hfind' with h0
          rw [h0]
          exact .same _
    | failStep jobId j0 msg now hfind0 hr =>
        by_cases hid : jobId = id
        · subst hid
          have h0 : j = j0 := Option.some.inj (hfind.symm.trans hfind0)
          rw [findJob_setJob_eq reg jobId j0 (failJob j0 msg now) hfind0] at hfind'
          have h1 : failJob j0 msg now = j' := Option.some.inj hfind'
          rw [h0, ← h1, hr]
          exact .fail
        · rw [findJob_setJob_ne reg jobId id _ hid, hfind] at hfind'
          injection hfind' with h0
          rw [h0]
          exact .same _
  · intro reg reg' id j hreach hfind hterm
    have hkeep : findJob reg' id = some j :=
      Reach.preserve (P := fun t => findJob t id = some j)
        (fun a b hs hp => queueStep_preserves_terminal a b id j hs hp hterm)
        reg reg' hreach hfind
    exact ⟨hkeep, by simp [getJob, hkeep]⟩

/-- C3 witness: enqueue on the empty registry creates a queued, readable
job, and a completed job is returned identically by getJob after the
trivial (empty) run of further steps. -/
theorem job_lifecycle_witness :
    ((enqueue [] "j1" "u1" demoInput 0).1.status = .queued
      ∧ findJob (enqueue [] "j1" "u1" demoInput 0).2 "j1"
          = some (enqueue [] "j1" "u1" demoInput 0).1)
    ∧ findJob demoRegistry "j1" = some demoDoneJob
    ∧ getJob demoRegistry "j1" demoDoneJob.ownerId = some demoDoneJob :=
  ⟨job_lifecycle.1 [] "j1" "u1" demoInput 0,
    (job_lifecycle.2.2 demoRegistry demoRegistry "j1" demoDoneJob
        (Reach.refl _) (by simp [demoRegistry, findJob]) trivial).1,
    (job_lifecycle.2.2 demoRegistry demoRegistry "j1" demoDoneJob
        (Reach.refl _) (by simp [demoRegistry, findJob]) trivial).2⟩

/-- C4: getJob is scoped to the submitting user — for a stored job, any
caller other than the owner gets the same not-found answer a nonexistent
job identifier yields (revealing nothing about the job), while the owner
gets the job itself. -/
theorem get_job_ownership_isolation :
    (∀ (reg : JobRegistry) (jobId userId : String) (j : Job),
        findJob reg jobId = some j → j.ownerId ≠ userId →
        getJob reg jobId userId = none)
    ∧ (∀ (reg : JobRegistry) (jobId userId : String),
        findJob reg jobId = none → getJob reg jobId userId = none)
    ∧ ∀ (reg : JobRegistry) (jobId : String) (j : Job),
        findJob reg jobId = some j → getJob reg jobId j.ownerId = some j := by
  refine ⟨?_, ?_, ?_⟩
  · intro reg jobId userId j hfind hne
    simp [getJob, hfind, hne]
  · intro reg jobId userId hfind
    simp [getJob, hfind]
  · intro reg jobId j hfind
    simp [getJob, hfind]

/-- C4 witness: in a registry holding only user u1's job j1, user u2's
lookup of j1 and anyone's lookup of the absent j2 both answer not-found,
while u1's lookup of j1 returns the job. -/
theorem get_job_ownership_isolation_witness :
    getJob demoRegistry "j1" "u2" = none
    ∧ getJob demoRegistry "j2" "u2" = none
    ∧ getJob demoRegistry "j1" demoDoneJob.ownerId = some demoDoneJob :=
  ⟨get_job_ownership_isolation.1 demoRegistry "j1" "u2" demoDoneJob
      (by simp [demoRegistry, findJob]) (by simp [demoDoneJob]),
    get_job_ownership_isolation.2.1 demoRegistry "j2" "u2"
      (by simp [demoRegistry, findJob]),
    get_job_ownership_isolation.2.2 demoRegistry "j1" demoDoneJob
      (by simp [demoRegistry, findJob])⟩

/-- C5: enrichment fragments are independent — the full-profile pipeline
returns exactly the successes of the individual fetches, one fragment's
failure never affecting another; and when a query is admitted and the agent
call succeeds while every market-data fragment fetch fails, the resulting
record still reaches status completed with an artifacts bag whose keys are
simply absent (an empty bag), never status failed. -/
theorem enrichment_degrades_without_failing :
    (∀ fetched : FragmentResults, enrich .full fetched = fetched)
    ∧ ∀ (st : BudgetState) (userId : String) (input : QueryInput)
        (recordId : String) (now : ℕ) (e : ℚ) (profile : EnrichProfile)
        (text : String) (usage : QueryUsage),
        (checkAdmission st e).1 = .Allowed →
        (executeQuery st userId input recordId now e profile
            (.success text usage) FragmentResults.allAbsent).record.status
          = .completed
        ∧ (executeQuery st userId input recordId now e profile
            (.success text usage) FragmentResults.allAbsent).record.artifacts
          = some (enrich profile FragmentResults.allAbsent)
        ∧ (enrich profile FragmentResults.allAbsent).isEmpty = true := by
  constructor
  · intro fetched
    rfl
  · intro st userId input recordId now e profile text usage hadm
    refine ⟨?_, ?_, ?_⟩
    · simp [executeQuery, hadm]
    · simp [executeQuery, hadm]
    · cases profile <;> rfl

/-- C5 witness: a concrete admitted query whose agent call succeeds while
every fragment fetch fails completes with an empty artifacts bag, and the
full profile keeps exactly the fetched fragments. -/
theorem enrichment_degrades_without_failing_witness :
    enrich .full FragmentResults.allAbsent = FragmentResults.allAbsent
    ∧ (executeQuery demoFreshBudget "u1" demoInput "q1" 0 1 .full
        (.success "answer" demoUsage) FragmentResults.allAbsent).record.status
      = .completed
    ∧ (executeQuery demoFreshBudget "u1" demoInput "q1" 0 1 .full
        (.success "answer" demoUsage) FragmentResults.allAbsent).record.artifacts
      = some (enrich .full FragmentResults.allAbsent)
    ∧ (enrich .full FragmentResults.allAbsent).isEmpty = true :=
  ⟨enrichment_degrades_without_failing.1 FragmentResults.allAbsent,
    enrichment_degrades_without_failing.2 demoFreshBudget "u1" demoInput "q1" 0 1
      .full "answer" demoUsage (by norm_num [checkAdmission, demoFreshBudget])⟩

/-- C6: in every state the executor can produce, a completed record has a
non-null response and a null error, and a failed record has a non-null
error; and the durable store is insert-only, so once a record (its usage
included) has been persisted it is never modified — every reachable later
store returns the identical record. -/
theorem query_record_invariants :
    (∀ (st : BudgetState) (userId : String) (input : QueryInput)
        (recordId : String) (now : ℕ) (e : ℚ) (profile : EnrichProfile)
        (agent : AgentResult) (fetched : FragmentResults),
        ((executeQuery st userId input recordId now e profile agent
            fetched).record.status = .completed →
          (executeQuery st userId input recordId now e profile agent
              fetched).record.response ≠ none
          ∧ (executeQuery st userId input recordId now e profile agent
              fetched).record.error = none)
        ∧ ((executeQuery st userId input recordId now e profile agent
            fetched).record.status = .failed →
          (executeQuery st userId input recordId now e profile agent
              fetched).record.error ≠ none))
    ∧ ∀ (s s' : RecordStore) (id : String) (r : QueryRecord),
        Reach StoreStep s s' → findRecord s id = some r →
        findRecord s' id = some r := by
  constructor
  · intro st userId input recordId now e profile agent fetched
    rcases hadm : (checkAdmission st e).1 with _ | cap
    · rcases agent with ⟨text, usage⟩ | ⟨msg, partialUsage⟩ <;>
        simp [executeQuery, hadm, initialRecord]
    · simp [executeQuery, hadm, initialRecord]
  · intro s s' id r hreach hfind
    exact Reach.preserve (P := fun t => findRecord t id = some r)
      (fun a b hs hp => storeStep_preserves a b id r hs hp) s s' hreach hfind

/-- C6 witness: a concrete successful execution yields a completed record
with non-null response and null error, and a persisted record is returned
unchanged after the trivial run of further store steps. -/
theorem query_record_invariants_witness :
    ((executeQuery demoFreshBudget "u1" demoInput "q1" 0 1 .light
        (.success "answer" demoUsage) FragmentResults.allAbsent).record.response
      ≠ none
    ∧ (executeQuery demoFreshBudget "u1" demoInput "q1" 0 1 .light
        (.success "answer" demoUsage) FragmentResults.allAbsent).record.error
      = none)
    ∧ findRecord [("q1", demoRecord)] "q1" = some demoRecord :=
  ⟨(query_record_invariants.1 demoFreshBudget "u1" demoInput "q1" 0 1 .light
      (.success "answer" demoUsage) FragmentResults.allAbsent).1
      (by norm_num [executeQuery, checkAdmission, demoFreshBudget]),
    query_record_invariants.2 [("q1", demoRecord)] [("q1", demoRecord)] "q1"
      demoRecord (Reach.refl _) (by simp [findRecord])⟩

/-- C8: when the current caps are positive and updateSettings accepts a
patch, every cap field not named in the patch keeps its previous value,
the spent totals are untouched, and all four resulting caps are positive;
and any patch naming a non-positive value for some cap is rejected. -/
theorem update_settings_partial_and_positive :
    (∀ (st : BudgetState) (p : BudgetSettingsPatch) (st' : BudgetState),
        0 < st.settings.dailyBudgetCap → 0 < st.settings.monthlyBudgetCap →
        0 < st.settings.perSessionCap → 0 < st.settings.perQueryCap →
        updateSettings st p = some st' →
        (p.dailyBudgetCap = none →
            st'.settings.dailyBudgetCap = st.settings.dailyBudgetCap)
        ∧ (p.monthlyBudgetCap = none →
            st'.settings.monthlyBudgetCap = st.settings.monthlyBudgetCap)
        ∧ (p.perSessionCap = none →
            st'.settings.perSessionCap = st.settings.perSessionCap)
        ∧ (p.perQueryCap = none →
            st'.settings.perQueryCap = st.settings.perQueryCap)
        ∧ st'.spent = st.spent
        ∧ 0 < st'.settings.dailyBudgetCap ∧ 0 < st'.settings.monthlyBudgetCap
        ∧ 0 < st'.settings.perSessionCap ∧ 0 < st'.settings.perQueryCap)
    ∧ ∀ (st : BudgetState) (p : BudgetSettingsPatch) (v : ℚ), v ≤ 0 →
        (p.dailyBudgetCap = some v ∨ p.monthlyBudgetCap = some v
          ∨ p.perSessionCap = some v ∨ p.perQueryCap = some v) →
        updateSettings st p = none := by
  constructor
  · intro st p st' hd hm hs hq hup
    unfold updateSettings parseBudgetSettingsPatch at hup
    by_cases hc : positiveIfPresent p.dailyBudgetCap
        ∧ positiveIfPresent p.monthlyBudgetCap
        ∧ positiveIfPresent p.perSessionCap ∧ positiveIfPresent p.perQueryCap
    · rw [if_pos hc] at hup
      obtain ⟨c1, c2, c3, c4⟩ := hc
      have hst' : { st with settings := applyBudgetPatch st.settings p } = st' :=
        Option.some.inj hup
      rw [← hst']
      refine ⟨?_, ?_, ?_, ?_, rfl, ?_, ?_, ?_, ?_⟩
      · intro hnone; simp [applyBudgetPatch, hnone]
      · intro hnone; simp [applyBudgetPatch, hnone]
      · intro hnone; simp [applyBudgetPatch, hnone]
      · intro hnone; simp [applyBudgetPatch, hnone]
      · cases hpd : p.dailyBudgetCap with
        | none => simpa [applyBudgetPatch, hpd] using hd
        | some v =>
            rw [hpd] at c1
            simpa [applyBudgetPatch, hpd] using c1
      · cases hpm : p.monthlyBudgetCap with
        | none => simpa [applyBudgetPatch, hpm] using hm
        | some v =>
            rw [hpm] at c2
            simpa [applyBudgetPatch, hpm] using c2
      · cases hps : p.perSessionCap with
        | none => simpa [applyBudgetPatch, hps] using hs
        | some v =>
            rw [hps] at c3
            simpa [applyBudgetPatch, hps] using c3
      · cases hpq : p.perQueryCap with
        | none => simpa [applyBudgetPatch, hpq] using hq
        | some v =>
            rw [hpq] at c4
            simpa [applyBudgetPatch, hpq] using c4
    · rw [if_neg hc] at hup
      cases hup
  · intro st p v hv hmem
    unfold updateSettings parseBudgetSettingsPatch
    have hneg : ¬(positiveIfPresent p.dailyBudgetCap
        ∧ positiveIfPresent p.monthlyBudgetCap
        ∧ positiveIfPresent p.perSessionCap
        ∧ positiveIfPresent p.perQueryCap) := by
      rintro ⟨c1, c2, c3, c4⟩
      rcases hmem with h | h | h | h
      · rw [h] at c1
        exact absurd c1 (not_lt.mpr hv)
      · rw [h] at c2
        exact absurd c2 (not_lt.mpr hv)
      · rw [h] at c3
        exact absurd c3 (not_lt.mpr hv)
      · rw [h] at c4
        exact absurd c4 (not_lt.mpr hv)
    rw [if_neg hneg]

/-- C8 witness: on a ledger with all caps 5, a patch naming only a daily
cap of 7 leaves the other caps and the spent totals unchanged and keeps
every cap positive, while a patch naming a daily cap of 0 is rejected. -/
theorem update_settings_partial_and_positive_witness :
    ((demoPatch.monthlyBudgetCap = none →
        demoUpdatedBudget.settings.monthlyBudgetCap
          = demoFreshBudget.settings.monthlyBudgetCap)
      ∧ demoUpdatedBudget.spent = demoFreshBudget.spent
      ∧ 0 < demoUpdatedBudget.settings.dailyBudgetCap)
    ∧ updateSettings demoFreshBudget demoBadPatch = none :=
  ⟨by
      have h := update_settings_partial_and_positive.1 demoFreshBudget demoPatch
        demoUpdatedBudget
        (by norm_num [demoFreshBudget]) (by norm_num [demoFreshBudget])
        (by norm_num [demoFreshBudget]) (by norm_num [demoFreshBudget])
        (by norm_num [updateSettings, parseBudgetSettingsPatch,
          positiveIfPresent, applyBudgetPatch, demoFreshBudget, demoPatch,
          demoUpdatedBudget])
      exact ⟨h.2.1, h.2.2.2.2.1, h.2.2.2.2.2.1⟩,
    update_settings_partial_and_positive.2 demoFreshBudget demoBadPatch 0
      le_rfl (Or.inl rfl)⟩

/-- C10 counterexample: the round-trip fails for the empty userId — the
token is signed with sub = "", but verifyAccessToken treats an empty
subject as falsy (the JavaScript !subject check) and raises the 401 error
instead of returning "", even under the same secret and well inside the
7-day window. -/
theorem access_token_roundtrip_empty_sub_fails :
    verifyAccessToken "finmind-dev-secret-change-this" 0
        (signAccessToken "finmind-dev-secret-change-this" 0 "")
      = .error .unauthorized
    ∧ verifyAccessToken "finmind-dev-secret-change-this" 0
        (signAccessToken "finmind-dev-secret-change-this" 0 "")
      ≠ .ok "" := by
  constructor
  · rfl
  · intro h
    cases h

/-- C10 (amended): for every non-empty userId, verifying the freshly
signed access token under the same JWT secret, at any time strictly before
the 7-day expiration, returns exactly that userId extracted from the sub
claim. -/
theorem access_token_roundtrip (secret userId : String) (t0 t1 : ℕ)
    (hne : userId ≠ "") (hwin : t1 < t0 + sevenDays) :
    verifyAccessToken secret t1 (signAccessToken secret t0 userId)
      = .ok userId := by
  unfold verifyAccessToken signAccessToken
  rw [if_pos ⟨rfl, rfl, hwin⟩]
  simp [hne]

/-- C10 witness: a concrete non-empty userId signed at time 0 verifies to
itself at time 0. -/
theorem access_token_roundtrip_witness :
    verifyAccessToken "finmind-dev-secret-change-this" 0
        (signAccessToken "finmind-dev-secret-change-this" 0 "u1") = .ok "u1" :=
  access_token_roundtrip "finmind-dev-secret-change-this" "u1" 0 0
    (by decide) (by decide)

end FinMind

